import Mathlib

/-!
Verification of the `mtnmts/toolchain` repository (an early-stage LSP client
plus a CLI dispatcher), against its natural-language specification.

The development shallowly embeds the two Rust source files:

* `src/lib/lsp-client/src/lib.rs` — the `Language` enum and its `program`
  mapping, the error enums (`LSPStartError`, `LSPStopError`, `LSPError`),
  and the `LSPServer` struct with its operations `new`, `started`, `start`,
  `stop`, `restart` and `initialize_lsp`.  External effects (process spawn,
  kill, serde serialization, pipe writes/reads) are supplied by an explicit
  `Effects` oracle, so each operation is a pure state transformer.
* `src/toolchain/src/main.rs` — `name_to_program` and the argument handling
  of `main`, embedded as the pure function `mainDispatch`.

Frames are modelled at the byte level (`List Nat`, one byte per element).
-/

namespace Toolchain

/-! ## Byte-level framing

`initialize_lsp` builds its wire frame with
`format!("Content-Length: \x7b\x7d\r\n\x7b\x7d", req_ser.len(), req_ser)`:
the `Content-Length` header line, then the body directly.  We embed that
format step as `encodeFrame` over the body bytes.  All header characters are
ASCII, so the code points produced by `asciiBytes` are exactly the UTF-8
bytes Rust's `as_bytes` yields, and Rust's `String::len` (a byte count) is
the length of the byte list. -/

/-- Byte values of an ASCII string: each character's code point.  For the
ASCII strings used here this agrees with Rust's `str::as_bytes`. -/
def asciiBytes (s : String) : List Nat := s.toList.map Char.toNat

/-- Decimal digit bytes of `n`, most significant first, with explicit fuel
(the fuel `n` always suffices since the number shrinks by a factor of ten
each step).  Empty for `n = 0`; `decimalBytes` adds the special case. -/
def decimalBytesAux : Nat → Nat → List Nat
  | 0, _ => []
  | _, 0 => []
  | fuel + 1, n + 1 => decimalBytesAux fuel ((n + 1) / 10) ++ [(n + 1) % 10 + 48]

/-- ASCII decimal rendering of a natural number, as Rust's `Display` for
`usize` produces it in `format!` (no sign, no padding, `"0"` for zero). -/
def decimalBytes (n : Nat) : List Nat :=
  if n = 0 then [48] else decimalBytesAux n n

/-- Carriage return and line feed, the header line terminator. -/
def crlf : List Nat := [13, 10]

/-- Embedding of the encoding step of `LSPServer::initialize_lsp`
(`src/lib/lsp-client/src/lib.rs`): the `format!` call that prepends
`Content-Length: <N>\r\n` to the serialized body, where `N` is
`req_ser.len()`, the body's byte length.  Note the source appends the body
directly after the single `\r\n`; it emits no blank separator line. -/
def encodeFrame (body : List Nat) : List Nat :=
  asciiBytes "Content-Length: " ++ (decimalBytes body.length ++ (crlf ++ body))

/-- Does a byte hold an ASCII decimal digit? -/
def isDigitByte (b : Nat) : Bool := 48 ≤ b && b ≤ 57

/-- Greedy decimal parser over bytes: consumes leading digit bytes,
accumulating their value onto `acc`, and returns the value with the
unconsumed remainder. -/
def readDecAux : List Nat → Nat → Nat × List Nat
  | [], acc => (acc, [])
  | b :: rest, acc =>
    if isDigitByte b then readDecAux rest (acc * 10 + (b - 48)) else (acc, b :: rest)

/-- Strip an expected literal byte sequence from the front of a stream. -/
def dropLiteral : List Nat → List Nat → Option (List Nat)
  | [], bs => some bs
  | _ :: _, [] => none
  | l :: ls, b :: bs => if b = l then dropLiteral ls bs else none

/-- Specification-side decoder for the header the encoder writes: strip the
literal `Content-Length: `, read the decimal value, require the `\r\n`
terminator, and return the announced length together with the bytes that
follow. -/
def decodeContentLength (frame : List Nat) : Option (Nat × List Nat) :=
  match dropLiteral (asciiBytes "Content-Length: ") frame with
  | none => none
  | some rest =>
    match readDecAux rest 0 with
    | (n, 13 :: 10 :: body) => some (n, body)
    | _ => none

/-! ## Language mapping (`Language` and `Language::program`) -/

/-- Embedding of `enum Language` from `src/lib/lsp-client/src/lib.rs`. -/
inductive Language
  | Cpp
  | C
  | Python
  | Rust
deriving DecidableEq

/-- Embedding of `Language::program`: `C`/`Cpp` map to `clangd`, `Rust` to
`rls`, and `Python` to `pyls`, exactly as the source `match`. -/
def Language.program : Language → String
  | .C | .Cpp => "clangd"
  | .Rust => "rls"
  | .Python => "pyls"

/-! ## Error types -/

/-- Stand-in for `std::io::Error`; claims depend only on its identity. -/
structure IOErr where
  code : Nat
deriving DecidableEq

/-- Stand-in for `serde_json::Error`. -/
structure SerdeErr where
  msg : String
deriving DecidableEq

/-- Embedding of `enum LSPStartError`. -/
inductive LSPStartError
  | SpawnFailed (e : IOErr)
  | AlreadyStarted
deriving DecidableEq

/-- Embedding of `enum LSPStopError`. -/
inductive LSPStopError
  | FailedToKill (e : IOErr)
deriving DecidableEq

/-- Embedding of `enum LSPError`. -/
inductive LSPError
  | StartError (e : LSPStartError)
  | StopError (e : LSPStopError)
  | JSONSerializationError (e : SerdeErr)
  | NotRunning
  | InvalidProcess
  | Other (s : String)
deriving DecidableEq

/-! ## Server state and effect oracle -/

/-- Embedding of `std::process::Child` as far as the claims need it: an
identity and whether the piped stdin/stdout handles are present (the source
checks `proc.stdin.as_mut()` / `proc.stdout.as_mut()` against `None`). -/
structure Child where
  pid : Nat
  hasStdin : Bool
  hasStdout : Bool
deriving DecidableEq

/-- Embedding of `struct LSPServer`: the same four fields. -/
structure LSPServer where
  language : Language
  workspace : String
  started : Bool
  process : Option Child
deriving DecidableEq

/-- Outcomes of the external world for one operation: the result of
`Command::spawn`, of `Child::kill`, of `serde_json::to_string` on the
initialize request (given as the UTF-8 bytes of the produced JSON text), of
`write_all` on the child's stdin, and of `read_line` on its stdout.  Each
operation consults only the components it uses, so a single record serves
`start`, `stop`, `restart` and `initialize_lsp` alike. -/
structure Effects where
  spawn : Except IOErr Child
  kill : Except IOErr Unit
  serialize : Except SerdeErr (List Nat)
  writeAll : Except IOErr Unit
  readLine : Except IOErr String

/-- Result of `initialize_lsp`: `Ok(())`, an `LSPError`, or a panic (the
source calls `.unwrap()` on the `read_line` result). -/
inductive InitOutcome
  | ok
  | err (e : LSPError)
  | panicked
deriving DecidableEq

/-- Embedding of `LSPServer::new`: fresh state, not started, no process. -/
def LSPServer.new (language : Language) (workspace : String) : LSPServer :=
  { language := language, workspace := workspace, started := false, process := none }

/-- Embedding of the private method `LSPServer::started`: `Ok(())` when the
flag is set, `Err(LSPError::NotRunning)` otherwise.  (Named `startedCheck`
because the Lean field projection already owns the name `started`.) -/
def startedCheck (s : LSPServer) : Except LSPError Unit :=
  match s.started with
  | true => .ok ()
  | false => .error .NotRunning

/-- Embedding of `LSPServer::start`: reject with `AlreadyStarted` when the
flag is set; otherwise spawn, and on success set the flag and store the
child, on failure return `SpawnFailed` leaving the state untouched. -/
def start (eff : Effects) (s : LSPServer) : Except LSPError Unit × LSPServer :=
  match s.started with
  | true => (.error (.StartError .AlreadyStarted), s)
  | false =>
    match eff.spawn with
    | .ok child => (.ok (), { s with started := true, process := some child })
    | .error e => (.error (.StartError (.SpawnFailed e)), s)

/-- Embedding of `LSPServer::stop`: `started()?`, then `process_mut()?`,
then `kill()`; on success clear the process and the flag. -/
def stop (eff : Effects) (s : LSPServer) : Except LSPError Unit × LSPServer :=
  match startedCheck s with
  | .error e => (.error e, s)
  | .ok _ =>
    match s.process with
    | none => (.error .InvalidProcess, s)
    | some _ =>
      match eff.kill with
      | .error e => (.error (.StopError (.FailedToKill e)), s)
      | .ok _ => (.ok (), { s with process := none, started := false })

/-- Embedding of `LSPServer::restart`: `self.stop()?; self.start()?;
Ok(())` — a stop, and when it succeeds, a fresh start on the stopped
state. -/
def restart (eff : Effects) (s : LSPServer) : Except LSPError Unit × LSPServer :=
  match stop eff s with
  | (.error e, s1) => (.error e, s1)
  | (.ok _, s1) => start eff s1

/-- Embedding of `LSPServer::initialize_lsp`.  The result triple carries the
outcome, the state after the call, and the byte strings handed to
`write_all` on the child's stdin.  Step order follows the source: the
`started` guard, serde serialization of the initialize request, the
`format!` framing (`encodeFrame`), `process_mut`, the stdin and stdout
presence checks, the write, and the `read_line(..).unwrap()` whose `Err`
case panics. -/
def initLsp (eff : Effects) (s : LSPServer) : InitOutcome × LSPServer × List (List Nat) :=
  match startedCheck s with
  | .error e => (.err e, s, [])
  | .ok _ =>
    match eff.serialize with
    | .error e => (.err (.JSONSerializationError e), s, [])
    | .ok reqSer =>
      let framed := encodeFrame reqSer
      match s.process with
      | none => (.err .InvalidProcess, s, [])
      | some proc =>
        match proc.hasStdin with
        | false => (.err (.Other "stdin is unavailable"), s, [])
        | true =>
          match proc.hasStdout with
          | false => (.err (.Other "stdout is unavailable"), s, [])
          | true =>
            match eff.writeAll with
            | .error _ => (.err (.Other "Failed to write to LSP"), s, [framed])
            | .ok _ =>
              match eff.readLine with
              | .error _ => (.panicked, s, [framed])
              | .ok _ => (.ok, s, [framed])

/-! ## CLI dispatcher (`src/toolchain/src/main.rs`) -/

/-- Embedding of `enum Program`. -/
inductive Program
  | Help
  | Example
deriving DecidableEq

/-- Embedding of `name_to_program`: `example` selects the example
subcommand; everything else falls through to help. -/
def name_to_program (name : String) : Program :=
  match name with
  | "example" => .Example
  | _ => .Help

/-- Observable outcome of `main`: which program ran, the argument vector it
received, and the process exit code (the source always returns normally,
so the code is 0 whenever `main` does not panic). -/
structure DispatchResult where
  prog : Program
  args : List String
  exitCode : Nat
deriving DecidableEq

/-- Embedding of the argument handling in `main`.  `args0` is `env::args()`
in full, argument 0 included.  When argument 0 equals `tc` it is drained,
an empty remainder runs help, and otherwise the next token is drained and
selects the program, which receives the tokens after it.  When argument 0
differs from `tc`, it selects the program and the *whole* vector, argument
0 included, is passed on.  `none` models the panic of `args.drain(0..1)`
on an empty vector (possible only for an empty `env::args()`). -/
def mainDispatch (args0 : List String) : Option DispatchResult :=
  let first_arg := (args0.head?).getD "tc"
  if first_arg = "tc" then
    match args0 with
    | [] => none
    | _ :: args1 =>
      match args1 with
      | [] => some { prog := Program.Help, args := [], exitCode := 0 }
      | a :: rest => some { prog := name_to_program a, args := rest, exitCode := 0 }
  else
    some { prog := name_to_program first_arg, args := args0, exitCode := 0 }

/-! ## Concrete fixtures used by witnesses and counterexamples -/

/-- A child whose piped handles are all present, as `start` creates it. -/
def child0 : Child := { pid := 1, hasStdin := true, hasStdout := true }

/-- A sample I/O error identity. -/
def ioErr0 : IOErr := { code := 1 }

/-- An environment in which every external effect succeeds. -/
def effOk : Effects :=
  { spawn := .ok child0, kill := .ok (), serialize := .ok (asciiBytes "null"),
    writeAll := .ok (), readLine := .ok "" }

/-- An environment in which spawning the child fails. -/
def effFail : Effects :=
  { spawn := .error ioErr0, kill := .ok (), serialize := .ok (asciiBytes "null"),
    writeAll := .ok (), readLine := .ok "" }

/-- A freshly constructed server. -/
def srvNew : LSPServer := LSPServer.new Language.Rust "."

/-- A running server: flag set, live child with open pipes. -/
def srvRun : LSPServer := { srvNew with started := true, process := some child0 }

/-! ## Helper lemmas -/

/-- Every byte the decimal renderer produces is a digit byte. -/
lemma decimalBytesAux_digits (fuel n : Nat) (h : n ≤ fuel) :
    ∀ d ∈ decimalBytesAux fuel n, isDigitByte d = true := by
  induction n using Nat.strong_induction_on generalizing fuel with
  | _ n ih =>
    match n, fuel with
    | 0, 0 => intro d hd; cases hd
    | 0, _ + 1 => intro d hd; cases hd
    | m + 1, f + 1 =>
      intro d hd
      simp only [decimalBytesAux, List.mem_append, List.mem_singleton] at hd
      rcases hd with hd | hd
      · have hdlt : (m + 1) / 10 < m + 1 := Nat.div_lt_self (Nat.succ_pos m) (by omega)
        exact ih ((m + 1) / 10) hdlt f (by omega) d hd
      · subst hd
        have : (m + 1) % 10 < 10 := Nat.mod_lt _ (by omega)
        simp [isDigitByte]
        omega

/-- The greedy parser consumes a block of digit bytes in one pass. -/
lemma readDecAux_append_digits (ds rest : List Nat) (acc : Nat)
    (hds : ∀ d ∈ ds, isDigitByte d = true) :
    readDecAux (ds ++ rest) acc =
      readDecAux rest (ds.foldl (fun a b => a * 10 + (b - 48)) acc) := by
  induction ds generalizing acc with
  | nil => rfl
  | cons d ds ih =>
    have hd : isDigitByte d = true := hds d (List.mem_cons_self d ds)
    simp only [List.cons_append, readDecAux, hd, if_pos]
    exact ih _ (fun x hx => hds x (List.mem_cons_of_mem d hx))

/-- Folding the digit bytes of `n` onto `acc` recovers `n` below `acc`
shifted by the digit count. -/
lemma foldl_decimalBytesAux (fuel n : Nat) (h : n ≤ fuel) (acc : Nat) :
    (decimalBytesAux fuel n).foldl (fun a b => a * 10 + (b - 48)) acc =
      acc * 10 ^ (decimalBytesAux fuel n).length + n := by
  induction n using Nat.strong_induction_on generalizing fuel acc with
  | _ n ih =>
    match n, fuel with
    | 0, 0 => simp [decimalBytesAux]
    | 0, _ + 1 => simp [decimalBytesAux]
    | m + 1, f + 1 =>
      have hdlt : (m + 1) / 10 < m + 1 := Nat.div_lt_self (Nat.succ_pos m) (by omega)
      simp only [decimalBytesAux, List.foldl_append, List.length_append]
      rw [ih ((m + 1) / 10) hdlt f (by omega) acc]
      simp only [List.foldl_cons, List.foldl_nil, List.length_cons, List.length_nil]
      have hm : (m + 1) % 10 + 48 - 48 = (m + 1) % 10 := by omega
      rw [hm]
      have hpow : acc * 10 ^ ((decimalBytesAux f ((m + 1) / 10)).length + (0 + 1)) =
          acc * 10 ^ (decimalBytesAux f ((m + 1) / 10)).length * 10 := by
        ring
      rw [hpow]
      have := Nat.div_add_mod (m + 1) 10
      omega

/-- Round trip of the decimal rendering through the greedy parser, for any
continuation that does not begin with a digit byte. -/
lemma readDec_decimalBytes (n : Nat) (rest : List Nat)
    (hrest : ∀ b bs, rest = b :: bs → isDigitByte b = false) :
    readDecAux (decimalBytes n ++ rest) 0 = (n, rest) := by
  have hstep : readDecAux rest n = (n, rest) := by
    cases rest with
    | nil => rfl
    | cons b bs =>
      have := hrest b bs rfl
      simp [readDecAux, this]
  unfold decimalBytes
  by_cases h0 : n = 0
  · subst h0
    simp only [if_pos rfl]
    have h48 : isDigitByte 48 = true := by decide
    calc readDecAux ([48] ++ rest) 0 = readDecAux rest 0 := by
          simp [readDecAux, h48]
      _ = (0, rest) := hstep
  · rw [if_neg h0]
    rw [readDecAux_append_digits _ _ _ (decimalBytesAux_digits n n (le_refl n))]
    rw [foldl_decimalBytesAux n n (le_refl n) 0]
    simpa using hstep

/-- Stripping a literal off itself followed by anything yields that
remainder. -/
lemma dropLiteral_self_append (l xs : List Nat) : dropLiteral l (l ++ xs) = some xs := by
  induction l with
  | nil => rfl
  | cons a t ih => simp [dropLiteral, ih]

/-- The header decoder inverts the encoder on every body. -/
lemma decode_encodeFrame (body : List Nat) :
    decodeContentLength (encodeFrame body) = some (body.length, body) := by
  have h1 : readDecAux (decimalBytes body.length ++ (13 :: 10 :: body)) 0 =
      (body.length, 13 :: 10 :: body) :=
    readDec_decimalBytes body.length (13 :: 10 :: body)
      (by intro b bs hb; cases hb; decide)
  unfold decodeContentLength encodeFrame
  rw [dropLiteral_self_append]
  simp only [crlf, List.cons_append, List.nil_append, h1]

/-- `initialize_lsp` never changes the server state, on any path. -/
lemma initLsp_state (eff : Effects) (s : LSPServer) : (initLsp eff s).2.1 = s := by
  obtain ⟨sp, ki, ser, wr, rd⟩ := eff
  obtain ⟨lang, ws, st, pr⟩ := s
  cases st with
  | false => rfl
  | true =>
    cases ser with
    | error e => rfl
    | ok reqSer =>
      cases pr with
      | none => rfl
      | some c =>
        obtain ⟨pid, hin, hout⟩ := c
        cases hin with
        | false => rfl
        | true =>
          cases hout with
          | false => rfl
          | true =>
            cases wr with
            | error e => rfl
            | ok u2 =>
              cases rd with
              | error e => rfl
              | ok out => rfl

/-- Everything `initialize_lsp` writes is one encoded frame of the
serialized request, or nothing at all. -/
lemma initLsp_writes (eff : Effects) (s : LSPServer) :
    (initLsp eff s).2.2 = [] ∨
      ∃ b, eff.serialize = Except.ok b ∧ (initLsp eff s).2.2 = [encodeFrame b] := by
  obtain ⟨sp, ki, ser, wr, rd⟩ := eff
  obtain ⟨lang, ws, st, pr⟩ := s
  cases st with
  | false => exact Or.inl rfl
  | true =>
    cases ser with
    | error e => exact Or.inl rfl
    | ok reqSer =>
      cases pr with
      | none => exact Or.inl rfl
      | some c =>
        obtain ⟨pid, hin, hout⟩ := c
        cases hin with
        | false => exact Or.inl rfl
        | true =>
          cases hout with
          | false => exact Or.inl rfl
          | true =>
            cases wr with
            | error e => exact Or.inr ⟨reqSer, rfl, rfl⟩
            | ok u2 =>
              cases rd with
              | error e => exact Or.inr ⟨reqSer, rfl, rfl⟩
              | ok out => exact Or.inr ⟨reqSer, rfl, rfl⟩

/-- A successful `stop` leaves the flag cleared and no process. -/
lemma stop_ok_state (eff : Effects) (s : LSPServer) :
    ∀ s', stop eff s = (Except.ok (), s') → s'.started = false ∧ s'.process = none := by
  obtain ⟨sp, ki, ser, wr, rd⟩ := eff
  obtain ⟨lang, ws, st, pr⟩ := s
  intro s' h
  cases st with
  | false => exact Except.noConfusion (congrArg Prod.fst h)
  | true =>
    cases pr with
    | none => exact Except.noConfusion (congrArg Prod.fst h)
    | some c =>
      cases ki with
      | error e => exact Except.noConfusion (congrArg Prod.fst h)
      | ok v =>
        have h2 : (⟨lang, ws, false, none⟩ : LSPServer) = s' := congrArg Prod.snd h
        rw [← h2]
        exact ⟨rfl, rfl⟩

/-- When `initialize_lsp` succeeds, serialization succeeded and exactly the
one encoded frame of its output was written. -/
lemma initLsp_ok_writes (eff : Effects) (s : LSPServer) :
    (initLsp eff s).1 = InitOutcome.ok →
      ∃ b, eff.serialize = Except.ok b ∧ (initLsp eff s).2.2 = [encodeFrame b] := by
  obtain ⟨sp, ki, ser, wr, rd⟩ := eff
  obtain ⟨lang, ws, st, pr⟩ := s
  cases st with
  | false => intro hok; exact InitOutcome.noConfusion hok
  | true =>
    cases ser with
    | error e => intro hok; exact InitOutcome.noConfusion hok
    | ok reqSer =>
      cases pr with
      | none => intro hok; exact InitOutcome.noConfusion hok
      | some c =>
        obtain ⟨pid, hin, hout⟩ := c
        cases hin with
        | false => intro hok; exact InitOutcome.noConfusion hok
        | true =>
          cases hout with
          | false => intro hok; exact InitOutcome.noConfusion hok
          | true =>
            cases wr with
            | error e => intro hok; exact InitOutcome.noConfusion hok
            | ok u2 =>
              cases rd with
              | error e => intro hok; exact InitOutcome.noConfusion hok
              | ok out => intro hok; exact ⟨reqSer, rfl, rfl⟩

/-- `start` preserves the flag/process agreement. -/
lemma start_inv (eff : Effects) (s : LSPServer) (h : s.started = s.process.isSome) :
    (start eff s).2.started = (start eff s).2.process.isSome := by
  obtain ⟨sp, ki, ser, wr, rd⟩ := eff
  obtain ⟨lang, ws, st, pr⟩ := s
  cases st with
  | true => exact h
  | false =>
    cases sp with
    | ok c => rfl
    | error e => exact h

/-- `stop` preserves the flag/process agreement. -/
lemma stop_inv (eff : Effects) (s : LSPServer) (h : s.started = s.process.isSome) :
    (stop eff s).2.started = (stop eff s).2.process.isSome := by
  obtain ⟨sp, ki, ser, wr, rd⟩ := eff
  obtain ⟨lang, ws, st, pr⟩ := s
  cases st with
  | false => exact h
  | true =>
    cases pr with
    | none => exact h
    | some c =>
      cases ki with
      | error e => exact h
      | ok v => rfl

/-- `restart` preserves the flag/process agreement. -/
lemma restart_inv (eff : Effects) (s : LSPServer) (h : s.started = s.process.isSome) :
    (restart eff s).2.started = (restart eff s).2.process.isSome := by
  unfold restart
  have h1 : (stop eff s).2.started = (stop eff s).2.process.isSome := stop_inv eff s h
  cases hstop : stop eff s with
  | mk r s1 =>
    rw [hstop] at h1
    cases r with
    | error e => exact h1
    | ok u => exact start_inv eff s1 h1

/-- Under the flag/process agreement, `stop` never reports
`InvalidProcess`. -/
lemma stop_not_invalid (eff : Effects) (s : LSPServer) (h : s.started = s.process.isSome) :
    (stop eff s).1 ≠ Except.error LSPError.InvalidProcess := by
  obtain ⟨sp, ki, ser, wr, rd⟩ := eff
  obtain ⟨lang, ws, st, pr⟩ := s
  cases st with
  | false => intro hh; exact LSPError.noConfusion (Except.error.inj hh)
  | true =>
    cases pr with
    | none => exact Bool.noConfusion h
    | some c =>
      cases ki with
      | error e => intro hh; exact LSPError.noConfusion (Except.error.inj hh)
      | ok v => intro hh; exact Except.noConfusion hh

/-- Under the flag/process agreement, `initialize_lsp` never reports
`InvalidProcess`. -/
lemma initLsp_not_invalid (eff : Effects) (s : LSPServer) (h : s.started = s.process.isSome) :
    (initLsp eff s).1 ≠ InitOutcome.err LSPError.InvalidProcess := by
  obtain ⟨sp, ki, ser, wr, rd⟩ := eff
  obtain ⟨lang, ws, st, pr⟩ := s
  cases st with
  | false => intro hh; exact LSPError.noConfusion (InitOutcome.err.inj hh)
  | true =>
    cases ser with
    | error e => intro hh; exact LSPError.noConfusion (InitOutcome.err.inj hh)
    | ok reqSer =>
      cases pr with
      | none => exact Bool.noConfusion h
      | some c =>
        obtain ⟨pid, hin, hout⟩ := c
        cases hin with
        | false => intro hh; exact LSPError.noConfusion (InitOutcome.err.inj hh)
        | true =>
          cases hout with
          | false => intro hh; exact LSPError.noConfusion (InitOutcome.err.inj hh)
          | true =>
            cases wr with
            | error e => intro hh; exact LSPError.noConfusion (InitOutcome.err.inj hh)
            | ok u2 =>
              cases rd with
              | error e => intro hh; exact InitOutcome.noConfusion hh
              | ok out => intro hh; exact InitOutcome.noConfusion hh

/-! ## Claims -/

/-- C1.  The claim says every emitted frame carries a blank `\r\n` line
between the `Content-Length` header and the body.  The encoding step of
`initialize_lsp` does not: on the four-byte body `null` it emits
`Content-Length: 4\r\n` followed immediately by the body, and the first 21
bytes are not the header followed by an empty line.  The claim (and the LSP
base protocol the code targets) is the evident intent; the code drops the
separator. -/
theorem c1_no_blank_separator :
    encodeFrame (asciiBytes "null") =
      asciiBytes "Content-Length: 4" ++ [13, 10] ++ asciiBytes "null" ∧
    (encodeFrame (asciiBytes "null")).take 21 ≠
      asciiBytes "Content-Length: 4" ++ [13, 10, 13, 10] := by
  constructor
  · rfl
  · decide

/-- C2.  The value written in the `Content-Length` header equals the exact
byte length of the body that follows: decoding the header of any encoded
frame returns the body's length and the body verbatim, and every byte
string `initialize_lsp` hands to the child's stdin is such a frame. -/
theorem c2_content_length_exact (eff : Effects) (s : LSPServer) :
    (∀ body : List Nat, decodeContentLength (encodeFrame body) = some (body.length, body)) ∧
    (∀ w ∈ (initLsp eff s).2.2, ∃ body, w = encodeFrame body ∧
        decodeContentLength w = some (body.length, body)) := by
  refine ⟨decode_encodeFrame, ?_⟩
  intro w hw
  rcases initLsp_writes eff s with hnil | ⟨b, hser, hcons⟩
  · rw [hnil] at hw; cases hw
  · rw [hcons] at hw
    rcases List.mem_singleton.mp hw with rfl
    exact ⟨b, rfl, decode_encodeFrame b⟩

/-- Witness for C2 at a concrete running server whose serialized request is
the four-byte body `null`. -/
theorem c2_content_length_exact_witness :
    ∃ body, encodeFrame (asciiBytes "null") = encodeFrame body ∧
      decodeContentLength (encodeFrame (asciiBytes "null")) =
        some (body.length, body) :=
  (c2_content_length_exact effOk srvRun).2 (encodeFrame (asciiBytes "null"))
    (List.Mem.head _)

/-- C3.  The claim maps Rust to `rust-analyzer` and Python to `pylsp`; the
source maps them to `rls` and `pyls`. -/
theorem c3_counterexample :
    Language.program Language.Rust = "rls" ∧ ("rls" : String) ≠ "rust-analyzer" ∧
    Language.program Language.Python = "pyls" ∧ ("pyls" : String) ≠ "pylsp" :=
  ⟨rfl, by decide, rfl, by decide⟩

/-- C3 amended.  The language-to-executable mapping is a pure function
taking `C` and `Cpp` to `clangd`, `Rust` to `rls`, and `Python` to
`pyls`. -/
theorem c3_amended :
    Language.program Language.C = "clangd" ∧ Language.program Language.Cpp = "clangd" ∧
    Language.program Language.Rust = "rls" ∧ Language.program Language.Python = "pyls" :=
  ⟨rfl, rfl, rfl, rfl⟩

/-- C4.  The claim says a second initialize after a successful one is
rejected.  On a running server with all effects succeeding, the first call
returns `Ok` and a second call on the resulting state returns `Ok` again —
nothing rejects it (the source keeps no initialize-completed flag and sends
no `initialized` notification). -/
theorem c4_counterexample :
    (initLsp effOk srvRun).1 = InitOutcome.ok ∧
    (initLsp effOk (initLsp effOk srvRun).2.1).1 = InitOutcome.ok :=
  ⟨rfl, rfl⟩

/-- C4 amended.  `initialize_lsp` is guarded only by the started flag: when
the server has not been started it returns `NotRunning` and writes nothing
to the child; the state is never changed, so a successful initialize may be
repeated and succeeds again; and on success the only bytes written are the
single framed initialize request — no `initialized` notification is
sent. -/
theorem c4_amended (eff : Effects) (s : LSPServer) :
    (s.started = false → initLsp eff s = (.err .NotRunning, s, [])) ∧
    (initLsp eff s).2.1 = s ∧
    ((initLsp eff s).1 = .ok → (initLsp eff (initLsp eff s).2.1).1 = .ok) ∧
    ((initLsp eff s).1 = .ok →
      ∃ reqSer, eff.serialize = Except.ok reqSer ∧
        (initLsp eff s).2.2 = [encodeFrame reqSer]) := by
  refine ⟨?_, initLsp_state eff s, ?_, ?_⟩
  · intro hs
    unfold initLsp startedCheck
    rw [hs]
  · intro hok
    rw [initLsp_state eff s]
    exact hok
  · exact initLsp_ok_writes eff s

/-- Witness for C4 amended: a fresh server is refused with `NotRunning` and
nothing is written; on a running server a successful initialize can be
repeated and succeeds again. -/
theorem c4_amended_witness :
    initLsp effOk srvNew = (.err .NotRunning, srvNew, []) ∧
    (initLsp effOk (initLsp effOk srvRun).2.1).1 = .ok :=
  ⟨(c4_amended effOk srvNew).1 rfl, (c4_amended effOk srvRun).2.2.1 rfl⟩

/-- C5.  Whenever the started flag is set, `start` is rejected with
`AlreadyStarted` and the state is returned unchanged. -/
theorem c5_start_rejected_when_started (eff : Effects) (s : LSPServer)
    (h : s.started = true) :
    start eff s = (.error (.StartError .AlreadyStarted), s) := by
  unfold start
  rw [h]

/-- Witness for C5 on a concrete running server. -/
theorem c5_start_rejected_when_started_witness :
    start effOk srvRun = (.error (.StartError .AlreadyStarted), srvRun) :=
  c5_start_rejected_when_started effOk srvRun rfl

/-- C6.  After any successful `stop`, a second `stop` (under any effects)
returns `NotRunning` and leaves the state unchanged. -/
theorem c6_stop_idempotent (eff eff' : Effects) (s s' : LSPServer)
    (h : stop eff s = (Except.ok (), s')) :
    stop eff' s' = (.error LSPError.NotRunning, s') := by
  obtain ⟨h1, _⟩ := stop_ok_state eff s s' h
  unfold stop startedCheck
  rw [h1]

/-- Witness for C6: stopping a concrete running server succeeds and the
repeated stop returns `NotRunning` on the unchanged stopped state. -/
theorem c6_stop_idempotent_witness :
    stop effOk srvNew = (.error LSPError.NotRunning, srvNew) :=
  c6_stop_idempotent effOk effOk srvRun srvNew rfl

/-- C7.  The claim says `restart` succeeds from a not-started state as well.
It does not: on a fresh server (all effects available and succeeding) the
inner `stop()?` fails and `restart` returns `NotRunning`, changing
nothing. -/
theorem c7_counterexample :
    restart effOk srvNew = (.error LSPError.NotRunning, srvNew) := rfl

/-- C7 amended.  `restart` is `stop` immediately followed by a fresh
`start`.  From a started state with a live child, when kill and spawn
succeed, it yields a fresh running state that keeps only the language and
workspace and holds the newly spawned child; from a not-started state it
fails with `NotRunning` and changes nothing. -/
theorem c7_amended (eff : Effects) (s : LSPServer) (c : Child)
    (hk : eff.kill = Except.ok ()) (hsp : eff.spawn = Except.ok c) :
    (s.started = true → s.process.isSome = true →
      restart eff s =
        (.ok (), { language := s.language, workspace := s.workspace,
                   started := true, process := some c })) ∧
    (s.started = false → restart eff s = (.error LSPError.NotRunning, s)) := by
  obtain ⟨sp, ki, ser, wr, rd⟩ := eff
  obtain ⟨lang, ws, st, pr⟩ := s
  have hk2 : ki = Except.ok () := hk
  have hsp2 : sp = Except.ok c := hsp
  subst hk2
  subst hsp2
  constructor
  · intro hst hp
    cases st with
    | false => exact Bool.noConfusion hst
    | true =>
      cases pr with
      | none => exact Bool.noConfusion hp
      | some c0 => rfl
  · intro hst
    cases st with
    | true => exact Bool.noConfusion hst
    | false => rfl

/-- Witness for C7 amended: restarting a concrete running server yields the
fresh running state, and restarting a fresh server fails with
`NotRunning`. -/
theorem c7_amended_witness :
    restart effOk srvRun =
      (.ok (), { language := Language.Rust, workspace := ".",
                 started := true, process := some child0 }) ∧
    restart effOk srvNew = (.error LSPError.NotRunning, srvNew) :=
  ⟨(c7_amended effOk srvRun child0 rfl rfl).1 rfl rfl,
   (c7_amended effOk srvNew child0 rfl rfl).2 rfl⟩

/-- C8.  When spawning fails, `start` returns `SpawnFailed` carrying the
spawn error and the state is exactly as before the call: flag still clear,
still no process handle. -/
theorem c8_spawn_failed_state_unchanged (eff : Effects) (s : LSPServer) (e : IOErr)
    (h0 : s.started = false) (h1 : s.process = none) (h2 : eff.spawn = Except.error e) :
    start eff s = (.error (.StartError (.SpawnFailed e)), s) ∧
    (start eff s).2.started = false ∧ (start eff s).2.process = none := by
  have hmain : start eff s = (.error (.StartError (.SpawnFailed e)), s) := by
    unfold start
    rw [h0, h2]
  refine ⟨hmain, ?_, ?_⟩
  · rw [hmain]; exact h0
  · rw [hmain]; exact h1

/-- Witness for C8 on a fresh server in an environment where spawn
fails. -/
theorem c8_spawn_failed_state_unchanged_witness :
    start effFail srvNew = (.error (.StartError (.SpawnFailed ioErr0)), srvNew) ∧
    (start effFail srvNew).2.started = false ∧
    (start effFail srvNew).2.process = none :=
  c8_spawn_failed_state_unchanged effFail srvNew ioErr0 rfl rfl rfl

/-- C9.  The claim says the tokens remaining after the subcommand token are
what gets forwarded.  When argument 0 is not `tc`, the source selects the
subcommand from argument 0 but forwards the whole vector, the subcommand
token included: on `[example, x]` the example program receives
`[example, x]`, not the remainder `[x]`. -/
theorem c9_counterexample :
    mainDispatch ["example", "x"] =
      some { prog := Program.Example, args := ["example", "x"], exitCode := 0 } ∧
    (["example", "x"] : List String) ≠ ["x"] :=
  ⟨rfl, by decide⟩

/-- C9 amended.  When argument 0 equals the invocation name `tc` it is
stripped, the next token selects the subcommand and the tokens after it are
forwarded; when argument 0 differs from `tc` it selects the subcommand and
the whole vector, argument 0 included, is forwarded; any token that names
no known subcommand selects help, and the dispatcher exits 0. -/
theorem c9_amended (a b : String) (rest : List String)
    (ha : a ≠ "tc") (hb : b ≠ "example") :
    mainDispatch ("tc" :: a :: rest) =
      some { prog := name_to_program a, args := rest, exitCode := 0 } ∧
    mainDispatch (a :: rest) =
      some { prog := name_to_program a, args := a :: rest, exitCode := 0 } ∧
    name_to_program b = Program.Help ∧
    mainDispatch ["tc"] = some { prog := Program.Help, args := [], exitCode := 0 } := by
  refine ⟨rfl, ?_, ?_, rfl⟩
  · unfold mainDispatch
    simp [ha]
  · unfold name_to_program
    split
    · exact absurd rfl hb
    · rfl

/-- Witness for C9 amended at concrete tokens `foo` and `bar`, neither of
which is `tc` or a known subcommand. -/
theorem c9_amended_witness :
    mainDispatch ["tc", "foo"] =
      some { prog := name_to_program "foo", args := [], exitCode := 0 } ∧
    mainDispatch ["foo"] =
      some { prog := name_to_program "foo", args := ["foo"], exitCode := 0 } ∧
    name_to_program "bar" = Program.Help ∧
    mainDispatch ["tc"] = some { prog := Program.Help, args := [], exitCode := 0 } :=
  c9_amended "foo" "bar" [] (by decide) (by decide)

/-- C10.  The flag/process agreement — `started` is `true` exactly when a
process handle is present — holds after construction and is preserved by
`start`, `stop`, `restart` and `initialize_lsp` on every path, whether they
return `Ok` or an error; consequently the started-guarded operations never
observe a missing process (`InvalidProcess` is unreachable). -/
theorem c10_invariant_preserved (l : Language) (w : String) (eff : Effects)
    (s : LSPServer) (h : s.started = s.process.isSome) :
    (LSPServer.new l w).started = (LSPServer.new l w).process.isSome ∧
    (start eff s).2.started = (start eff s).2.process.isSome ∧
    (stop eff s).2.started = (stop eff s).2.process.isSome ∧
    (restart eff s).2.started = (restart eff s).2.process.isSome ∧
    (initLsp eff s).2.1.started = (initLsp eff s).2.1.process.isSome ∧
    (stop eff s).1 ≠ Except.error LSPError.InvalidProcess ∧
    (initLsp eff s).1 ≠ InitOutcome.err LSPError.InvalidProcess :=
  ⟨rfl, start_inv eff s h, stop_inv eff s h, restart_inv eff s h,
   by rw [initLsp_state eff s]; exact h,
   stop_not_invalid eff s h, initLsp_not_invalid eff s h⟩

/-- Witness for C10 on a concrete running server in the all-succeeding
environment. -/
theorem c10_invariant_preserved_witness :
    (LSPServer.new Language.Python "").started =
      (LSPServer.new Language.Python "").process.isSome ∧
    (start effOk srvRun).2.started = (start effOk srvRun).2.process.isSome ∧
    (stop effOk srvRun).2.started = (stop effOk srvRun).2.process.isSome ∧
    (restart effOk srvRun).2.started = (restart effOk srvRun).2.process.isSome ∧
    (initLsp effOk srvRun).2.1.started = (initLsp effOk srvRun).2.1.process.isSome ∧
    (stop effOk srvRun).1 ≠ Except.error LSPError.InvalidProcess ∧
    (initLsp effOk srvRun).1 ≠ InitOutcome.err LSPError.InvalidProcess :=
  c10_invariant_preserved Language.Python "" effOk srvRun rfl

end Toolchain
